import Mathlib

/-!
# Contact e-mail endpoint (`email_contact/main.go`)

A shallow embedding of the validation and message-assembly pipeline of the
contact e-mail Lambda, and theorems about it.

Modelling conventions.

* A Go `string` is a Lean `String`; Go's `len(s)` is the UTF-8 byte length,
  `String.utf8ByteSize`.  Every string that reaches `isValid` comes out of
  `json.Unmarshal`, which only produces valid UTF-8.
* A Go `error` is `Option (GoError E)`, `none` being `nil`.  Errors built by
  `errors.New` and by `fmt.Errorf` (without `%w`) are `*errors.errorString`
  values, determined by their text; errors produced by library code
  (`encoding/json`, `net/mail`, the AWS SDK) are values of a type `E` the
  development is parametric in, together with their `Error()` text.
* `regexp.MatchString` is an unanchored search by Brzozowski derivatives over
  a regex syntax with the anchors `^` and `$`; the search is proved to decide
  the declarative "the text contains a match".
* Library calls (`json.Unmarshal`, `mail.ParseAddress`,
  `session.NewSession`) and the two remote collaborators (SSM `GetParameter`,
  SES `SendEmail`) are fields of `Collab`.  The remote ones are stateful: they
  take and return a world `W`, and every call is appended to a call log.
* A function either returns or panics (`Run`).  The two places that can panic
  are `session.Must` in `handler` and the dereference
  `*param.Parameter.Value` in `getParameterValue`; the pointers of the SSM
  output are `Option`s.
-/

namespace EmailContact

/-! ## Regular expressions (the fragment of RE2 syntax used by `expr`) -/

/-- Abstract syntax of the regular expressions needed for `expr`, after the
operators of Go's `regexp/syntax`. -/
inductive Regex where
  /-- matches no string (only produced by derivatives) -/
  | none : Regex
  /-- matches the empty string -/
  | eps : Regex
  /-- a literal character -/
  | lit : Char → Regex
  /-- a character class `[lo-hi]` -/
  | range : Char → Char → Regex
  /-- concatenation -/
  | cat : Regex → Regex → Regex
  /-- alternation `a|b` -/
  | alt : Regex → Regex → Regex
  /-- repetition `a*` -/
  | star : Regex → Regex
  /-- the anchor `^` without the multi-line flag: the empty string at the
  beginning of the text -/
  | beginText : Regex
  /-- the anchor `$` without the multi-line flag: the empty string at the end
  of the text -/
  | endText : Regex
  deriving DecidableEq, Repr

namespace Regex

/-- The regex `a+`, one or more repetitions. -/
def plus (r : Regex) : Regex := cat r (star r)

/-- A literal string, the concatenation of its characters. -/
def str : List Char → Regex
  | [] => eps
  | c :: cs => cat (lit c) (str cs)

/-- Does the regex match the empty string at a position that is at the start
of the text (`st`) and at the end of the text (`en`)? -/
def nullable (st en : Bool) : Regex → Bool
  | none => false
  | eps => true
  | lit _ => false
  | range _ _ => false
  | cat r s => nullable st en r && nullable st en s
  | alt r s => nullable st en r || nullable st en s
  | star _ => true
  | beginText => st
  | endText => en

/-- Brzozowski derivative with respect to a character `c` read at a position
that is at the start of the text iff `st`; what remains is to be matched
right after `c`. -/
def deriv (st : Bool) (c : Char) : Regex → Regex
  | none => none
  | eps => none
  | lit d => if c = d then eps else none
  | range lo hi => if lo ≤ c ∧ c ≤ hi then eps else none
  | cat r s =>
    if nullable st false r then alt (cat (deriv st c r) s) (deriv st c s)
    else cat (deriv st c r) s
  | alt r s => alt (deriv st c r) (deriv st c s)
  | star r => cat (deriv st c r) (star r)
  | beginText => none
  | endText => none

/-- Does the regex match some prefix of the rest of the text?  `st` says
whether the rest is the whole text. -/
def prefixMatch (st : Bool) (r : Regex) : List Char → Bool
  | [] => nullable st true r
  | c :: cs => nullable st false r || prefixMatch false (deriv st c r) cs

/-- Unanchored search: does the regex match somewhere in the rest of the text? -/
def search (st : Bool) (r : Regex) : List Char → Bool
  | [] => prefixMatch st r []
  | c :: cs => prefixMatch st r (c :: cs) || search false r cs

/-- Declarative semantics.  `Matches r st en m`: the regex matches the span `m`
of a text, where `st` says that the span begins at the beginning of the text
and `en` that it ends at the end of the text. -/
inductive Matches : Regex → Bool → Bool → List Char → Prop where
  | eps (st en : Bool) : Matches eps st en []
  | lit (st en : Bool) (c : Char) : Matches (lit c) st en [c]
  | range (st en : Bool) (lo hi c : Char) : lo ≤ c → c ≤ hi → Matches (range lo hi) st en [c]
  | cat {r s : Regex} {st en : Bool} {u v : List Char} :
      Matches r st (en && v.isEmpty) u → Matches s (st && u.isEmpty) en v →
      Matches (cat r s) st en (u ++ v)
  | altL {r s : Regex} {st en : Bool} {u : List Char} : Matches r st en u → Matches (alt r s) st en u
  | altR {r s : Regex} {st en : Bool} {u : List Char} : Matches s st en u → Matches (alt r s) st en u
  | starNil {r : Regex} (st en : Bool) : Matches (star r) st en []
  | starCons {r : Regex} {st en : Bool} {u v : List Char} :
      Matches r st (en && v.isEmpty) u → Matches (star r) (st && u.isEmpty) en v →
      Matches (star r) st en (u ++ v)
  | beginText (en : Bool) : Matches beginText true en []
  | endText (st : Bool) : Matches endText st true []

/-- The regex matches some substring of the text. -/
def Found (r : Regex) (s : List Char) : Prop :=
  ∃ b m a, s = b ++ (m ++ a) ∧ Matches r b.isEmpty a.isEmpty m

end Regex

/-! ## Constants of `main.go` -/

/-- Character encoding for the email. -/
def charSet : String := "UTF-8"

/-- Separator between actual email message and app version. -/
def separator : String := "  ### app version: "

def max_subject_length : Nat := 50

def max_message_length : Nat := 500

/-- Valid app version: the pattern
`^(?:ios|android) [0-9]+\.[0-9]+\.[0-9]+\+[0-9]+$`, parsed.
`(?:…)` is a non-capturing group, `\.` and `\+` are the literal characters. -/
def expr : Regex :=
  open Regex in
  cat beginText
    (cat (alt (str "ios".data) (str "android".data))
      (cat (lit ' ')
        (cat (plus (range '0' '9'))
          (cat (lit '.')
            (cat (plus (range '0' '9'))
              (cat (lit '.')
                (cat (plus (range '0' '9'))
                  (cat (lit '+')
                    (cat (plus (range '0' '9'))
                      endText)))))))))

/-- Go's `regexp.MatchString(pattern, s)` for a pattern that compiles (the
returned error is then `nil`): whether the text contains any match of the
pattern. -/
def MatchString (pattern : Regex) (s : String) : Bool :=
  Regex.search true pattern s.data

/-! ## Errors -/

/-- A non-nil Go `error`.  `errors.New s` and `fmt.Errorf` without `%w` both
build an `*errors.errorString` holding the text; `foreign` is an error value
handed back by library code. -/
inductive GoError (E : Type) where
  | errorString : String → GoError E
  | foreign : E → GoError E
  deriving DecidableEq, Repr

/-- The struct the JSON request body is decoded into. -/
structure Mail where
  Email : String
  Subject : String
  Message : String
  AppVersion : String
  deriving DecidableEq, Repr

/-- The part of `events.APIGatewayV2HTTPRequestContext` the handler reads. -/
structure APIGatewayV2HTTPRequestContext where
  Stage : String
  deriving DecidableEq, Repr

/-- The part of `events.APIGatewayV2HTTPRequest` the handler reads. -/
structure APIGatewayV2HTTPRequest where
  Body : String
  RequestContext : APIGatewayV2HTTPRequestContext
  deriving DecidableEq, Repr

/-- The type `ses.Content`. -/
structure Content where
  Charset : String
  Data : String
  deriving DecidableEq, Repr

/-- The type `ses.Body`; `buildEmail` sets `Text` only (`Html` stays nil). -/
structure Body where
  Text : Content
  deriving DecidableEq, Repr

/-- The type `ses.Message`. -/
structure Message where
  Body : Body
  Subject : Content
  deriving DecidableEq, Repr

/-- The type `ses.Destination`; `buildEmail` sets `ToAddresses` only. -/
structure Destination where
  ToAddresses : List String
  deriving DecidableEq, Repr

/-- The fields of `ses.SendEmailInput` that `buildEmail` sets. -/
structure SendEmailInput where
  Destination : Destination
  Message : Message
  Source : String
  ReplyToAddresses : List String
  deriving DecidableEq, Repr

/-- The type `ssm.Parameter`, its field `Value *string`. -/
structure Parameter where
  Value : Option String
  deriving DecidableEq, Repr

/-- The type `ssm.GetParameterOutput`, its field `Parameter *Parameter`. -/
structure GetParameterOutput where
  Parameter : Option Parameter
  deriving DecidableEq, Repr

/-- How a call ends: it returns a result, or it panics. -/
inductive Run (α : Type) where
  | ret : α → Run α
  | panic : Run α
  deriving DecidableEq, Repr

/-! ## Collaborators -/

/-- A call made to a remote service. -/
inductive Call where
  | GetParameter (name : String) : Call
  | SendEmail (input : SendEmailInput) : Call
  deriving DecidableEq, Repr

/-- The code `main.go` calls but does not define.  `E` is the type of library
errors, `W` the state of the outside world. -/
structure Collab (E W : Type) where
  /-- The text `Error()` of a library error -/
  errText : E → String
  /-- The call `json.Unmarshal([]byte(body), &bodyRequest)`: the decoded struct or an error -/
  Unmarshal : String → Except E Mail
  /-- The call `mail.ParseAddress(value)`, its error result only -/
  ParseAddress : String → Option E
  /-- The error result of `session.NewSession()` -/
  NewSession : Option E
  /-- The call `ssmsvc.GetParameter` with the given `Name`: the output or an error -/
  GetParameter : String → W → Except E GetParameterOutput × W
  /-- The call `svc.SendEmail(input)`, its error result only -/
  SendEmail : SendEmailInput → W → Option E × W

/-- The outside world together with the log of the remote calls made so far. -/
structure Sys (W : Type) where
  world : W
  calls : List Call
  deriving DecidableEq, Repr

/-! ## `encoding/json` output for a `map[string]string` -/

section
variable {E W : Type}

/-- Checks one field; the `switch` on the kind `input`, with `nil` on
fall-through. -/
def isValid (c : Collab E W) (input : String) (value : String) : Option (GoError E) :=
  if input = "email" then
    (c.ParseAddress value).map GoError.foreign
  else if input = "subject" then
    if value.utf8ByteSize > max_subject_length then
      some (.errorString ("email subject is more than " ++ Nat.repr max_subject_length ++ " characters"))
    else none
  else if input = "message" then
    if value.utf8ByteSize > max_message_length then
      some (.errorString ("email message is more than " ++ Nat.repr max_message_length ++ " characters"))
    else none
  else if input = "app" then
    if !MatchString expr value then
      some (.errorString (value ++ " app version is not correct"))
    else none
  else
    some (.errorString ("unknown field " ++ input))

/-- Reads one parameter from the configuration store.  On success it returns
`*param.Parameter.Value`, dereferenced without a nil check: a nil `Parameter`
or a nil `Value` is a run-time panic. -/
def getParameterValue (c : Collab E W) (paramName : String) (s : Sys W) :
    Run (Except (GoError E) String) × Sys W :=
  match c.GetParameter paramName s.world with
  | (.error err, w) =>
    (.ret (.error (.foreign err)), ⟨w, s.calls ++ [.GetParameter paramName]⟩)
  | (.ok param, w) =>
    match param.Parameter with
    | none => (.panic, ⟨w, s.calls ++ [.GetParameter paramName]⟩)
    | some parameter =>
      match parameter.Value with
      | none => (.panic, ⟨w, s.calls ++ [.GetParameter paramName]⟩)
      | some value => (.ret (.ok value), ⟨w, s.calls ++ [.GetParameter paramName]⟩)

/-- Decodes and validates the request, resolves the recipient and assembles
the message. -/
def buildEmail (c : Collab E W) (r : APIGatewayV2HTTPRequest) (s : Sys W) :
    Run (Except (GoError E) SendEmailInput) × Sys W :=
  match c.Unmarshal r.Body with
  | .error err => (.ret (.error (.foreign err)), s)
  | .ok bodyRequest =>
    match isValid c "email" bodyRequest.Email with
    | some err => (.ret (.error err), s)
    | none =>
    match isValid c "subject" bodyRequest.Subject with
    | some err => (.ret (.error err), s)
    | none =>
    match isValid c "message" bodyRequest.Message with
    | some err => (.ret (.error err), s)
    | none =>
    match isValid c "app" bodyRequest.AppVersion with
    | some err => (.ret (.error err), s)
    | none =>
    let stage := if r.RequestContext.Stage = "" then "dev" else r.RequestContext.Stage
    let paramName := "/collaction/" ++ stage ++ "/contact/email"
    match getParameterValue c paramName s with
    | (.panic, s1) => (.panic, s1)
    | (.ret (.error err), s1) => (.ret (.error err), s1)
    | (.ret (.ok recipient), s1) =>
      if recipient = "" then
        (.ret (.error (.errorString "no email value")), s1)
      else
        let sender := recipient
        (.ret (.ok {
          Destination := { ToAddresses := [recipient] }
          Message := {
            Body := { Text := { Charset := charSet,
                                Data := bodyRequest.Message ++ separator ++ bodyRequest.AppVersion } }
            Subject := { Charset := charSet, Data := bodyRequest.Subject } }
          Source := sender
          ReplyToAddresses := [bodyRequest.Email] }), s1)

end

/-! ## A concrete set of collaborators, for instances of the theorems -/

/-- The request body of the end-to-end example. -/
def sampleBody : String :=
  "\x7b\"email\":\"a@b.com\",\"subject\":\"Hi\",\"message\":\"Hello\",\"app_version\":\"android 2.0.0+10\"\x7d"

/-- A request body with a 51-byte subject and a client tag outside the grammar. -/
def longSubjectBody : String :=
  "\x7b\"email\":\"a@b.com\",\"subject\":\"" ++ String.mk (List.replicate 51 'x') ++
    "\",\"message\":\"Hello\",\"app_version\":\"windows 1.2.3+4\"\x7d"

/-- Collaborators with library errors given by their text and a one-point
world: the decoder knows the two sample bodies, the address parser accepts
`a@b.com`, the store answers every key with `stored`, the mail service
answers every message with `sendErr` and session creation ends with
`sessErr`. -/
def sampleCollab (stored : Except String GetParameterOutput) (sendErr : Option String)
    (sessErr : Option String) : Collab String Unit where
  errText := id
  NewSession := sessErr
  Unmarshal := fun body =>
    if body = sampleBody then
      .ok { Email := "a@b.com", Subject := "Hi", Message := "Hello",
            AppVersion := "android 2.0.0+10" }
    else if body = longSubjectBody then
      .ok { Email := "a@b.com", Subject := String.mk (List.replicate 51 'x'),
            Message := "Hello", AppVersion := "windows 1.2.3+4" }
    else .error "unexpected end of JSON input"
  ParseAddress := fun value =>
    if value = "a@b.com" then none else some "mail: missing '@' or angle-addr"
  GetParameter := fun _ w => (stored, w)
  SendEmail := fun _ w => (sendErr, w)

/-! ## The client-tag grammar, as the specification words it -/

/-- A non-empty run of ASCII digits `0`-`9`. -/
def IsDigits (d : String) : Prop :=
  d ≠ "" ∧ ∀ c ∈ d.data, c.isDigit = true

/-- The grammar `(ios|android) <major>.<minor>.<patch>+<build>`: the platform
literal, exactly one space, three non-empty digit runs separated by `.`, a
`+`, a non-empty digit run, and nothing before or after. -/
def AppVersionGrammar (v : String) : Prop :=
  ∃ platform major minor patch build : String,
    (platform = "ios" ∨ platform = "android") ∧
    IsDigits major ∧ IsDigits minor ∧ IsDigits patch ∧ IsDigits build ∧
    v = platform ++ " " ++ major ++ "." ++ minor ++ "." ++ patch ++ "+" ++ build

/-! ## Correctness of the derivative matcher -/

namespace Regex

theorem matches_none_iff (st en : Bool) (s : List Char) : Matches none st en s ↔ False := by
  constructor
  · intro h; cases h
  · intro h; exact h.elim

theorem matches_eps_iff (st en : Bool) (s : List Char) : Matches eps st en s ↔ s = [] := by
  constructor
  · intro h; cases h; rfl
  · rintro rfl; exact Matches.eps st en

theorem matches_lit_iff (st en : Bool) (c : Char) (s : List Char) :
    Matches (lit c) st en s ↔ s = [c] := by
  constructor
  · intro h; cases h; rfl
  · rintro rfl; exact Matches.lit st en c

theorem matches_range_iff (st en : Bool) (lo hi : Char) (s : List Char) :
    Matches (range lo hi) st en s ↔ ∃ c, s = [c] ∧ lo ≤ c ∧ c ≤ hi := by
  constructor
  · intro h
    cases h with
    | range _ _ _ _ c h1 h2 => exact ⟨c, rfl, h1, h2⟩
  · rintro ⟨c, rfl, h1, h2⟩; exact Matches.range st en lo hi c h1 h2

theorem matches_cat_iff (r t : Regex) (st en : Bool) (s : List Char) :
    Matches (cat r t) st en s ↔
      ∃ u v, s = u ++ v ∧ Matches r st (en && v.isEmpty) u ∧ Matches t (st && u.isEmpty) en v := by
  constructor
  · intro h
    cases h with
    | cat h1 h2 => exact ⟨_, _, rfl, h1, h2⟩
  · rintro ⟨u, v, rfl, h1, h2⟩; exact Matches.cat h1 h2

theorem matches_alt_iff (r t : Regex) (st en : Bool) (s : List Char) :
    Matches (alt r t) st en s ↔ Matches r st en s ∨ Matches t st en s := by
  constructor
  · intro h
    cases h with
    | altL h1 => exact Or.inl h1
    | altR h1 => exact Or.inr h1
  · rintro (h | h)
    · exact Matches.altL h
    · exact Matches.altR h

theorem matches_beginText_iff (st en : Bool) (s : List Char) :
    Matches beginText st en s ↔ st = true ∧ s = [] := by
  constructor
  · intro h; cases h; exact ⟨rfl, rfl⟩
  · rintro ⟨rfl, rfl⟩; exact Matches.beginText en

theorem matches_endText_iff (st en : Bool) (s : List Char) :
    Matches endText st en s ↔ en = true ∧ s = [] := by
  constructor
  · intro h; cases h; exact ⟨rfl, rfl⟩
  · rintro ⟨rfl, rfl⟩; exact Matches.endText st

/-- A non-empty match of `r*` starts with a non-empty match of `r`. -/
theorem matches_star_cons (r : Regex) (st en : Bool) (c : Char) (s : List Char) :
    Matches (star r) st en (c :: s) ↔
      ∃ u v, s = u ++ v ∧ Matches r st (en && v.isEmpty) (c :: u) ∧
        Matches (star r) false en v := by
  constructor
  · intro h
    generalize hq : star r = q at h
    generalize hw : c :: s = w at h
    induction h generalizing s with
    | eps => cases hq
    | lit => cases hq
    | range => cases hq
    | cat => cases hq
    | altL => cases hq
    | altR => cases hq
    | beginText => cases hq
    | endText => cases hq
    | starNil => cases hw
    | @starCons r1 st1 en1 u v h1 h2 _ ih2 =>
      cases hq
      cases u with
      | nil =>
        have h3 := ih2 s rfl (by simpa using hw)
        simpa using h3
      | cons d u =>
        simp only [List.cons_append, List.cons.injEq] at hw
        obtain ⟨rfl, rfl⟩ := hw
        simp only [List.isEmpty_cons, Bool.and_false] at h2
        exact ⟨u, v, rfl, h1, h2⟩
  · rintro ⟨u, v, rfl, h1, h2⟩
    have h := @Matches.starCons r st en (c :: u) v h1 (by simpa using h2)
    simpa using h

theorem nullable_iff (r : Regex) (st en : Bool) :
    nullable st en r = true ↔ Matches r st en [] := by
  induction r with
  | none => simp [nullable, matches_none_iff]
  | eps => simp [nullable, matches_eps_iff]
  | lit c => simp [nullable, matches_lit_iff]
  | range lo hi => simp [nullable, matches_range_iff]
  | cat r t ihr iht =>
    simp only [nullable, Bool.and_eq_true, ihr, iht, matches_cat_iff]
    constructor
    · rintro ⟨h1, h2⟩
      exact ⟨[], [], rfl, by simpa using h1, by simpa using h2⟩
    · rintro ⟨u, v, h, h1, h2⟩
      obtain ⟨hu, hv⟩ := List.append_eq_nil.1 h.symm
      subst hu hv
      exact ⟨by simpa using h1, by simpa using h2⟩
  | alt r t ihr iht => simp [nullable, ihr, iht, matches_alt_iff]
  | star r _ => simp [nullable, Matches.starNil]
  | beginText => simp [nullable, matches_beginText_iff]
  | endText => simp [nullable, matches_endText_iff]

theorem deriv_iff (r : Regex) (st en : Bool) (c : Char) (s : List Char) :
    Matches (deriv st c r) false en s ↔ Matches r st en (c :: s) := by
  induction r generalizing en s with
  | none => simp [deriv, matches_none_iff]
  | eps => simp [deriv, matches_none_iff, matches_eps_iff]
  | lit d =>
    by_cases h : c = d
    · simp [deriv, h, matches_eps_iff, matches_lit_iff]
    · simp [deriv, h, matches_none_iff, matches_lit_iff]
  | range lo hi =>
    by_cases h : lo ≤ c ∧ c ≤ hi
    · simp only [deriv, h, and_self, if_true, matches_eps_iff, matches_range_iff]
      constructor
      · rintro rfl; exact ⟨c, rfl, h.1, h.2⟩
      · rintro ⟨d, hd, _⟩; exact (List.cons.inj hd).2
    · simp only [deriv, h, if_false, matches_none_iff, matches_range_iff, false_iff]
      rintro ⟨d, hd, h1, h2⟩
      simp only [List.cons.injEq] at hd
      obtain ⟨rfl, -⟩ := hd
      exact h ⟨h1, h2⟩
  | beginText => simp [deriv, matches_none_iff, matches_beginText_iff]
  | endText => simp [deriv, matches_none_iff, matches_endText_iff]
  | cat r t ihr iht =>
    have key : Matches (cat r t) st en (c :: s) ↔
        (Matches r st false [] ∧ Matches t st en (c :: s)) ∨
          ∃ u v, s = u ++ v ∧ Matches r st (en && v.isEmpty) (c :: u) ∧
            Matches t false en v := by
      rw [matches_cat_iff]
      constructor
      · rintro ⟨u, v, h, h1, h2⟩
        cases u with
        | nil =>
          left
          simp only [List.nil_append] at h
          subst h
          exact ⟨by simpa using h1, by simpa using h2⟩
        | cons d u =>
          simp only [List.cons_append, List.cons.injEq] at h
          obtain ⟨rfl, rfl⟩ := h
          exact Or.inr ⟨u, v, rfl, h1, by simpa using h2⟩
      · rintro (⟨h1, h2⟩ | ⟨u, v, rfl, h1, h2⟩)
        · exact ⟨[], c :: s, rfl, by simpa using h1, by simpa using h2⟩
        · exact ⟨c :: u, v, rfl, h1, by simpa using h2⟩
    rw [key]
    clear key
    by_cases hn : nullable st false r = true
    · have h0 : Matches r st false [] := (nullable_iff r st false).1 hn
      simp only [deriv, hn, if_true, matches_alt_iff, matches_cat_iff, ihr, iht, h0, true_and,
        Bool.false_and]
      exact Or.comm
    · have h0 : ¬ Matches r st false [] := fun h => hn ((nullable_iff r st false).2 h)
      simp only [deriv, hn, Bool.false_eq_true, if_false, matches_cat_iff, ihr, h0, false_and,
        false_or, Bool.false_and]
  | alt r t ihr iht => simp [deriv, matches_alt_iff, ihr, iht]
  | star r ihr =>
    simp only [deriv, matches_cat_iff, ihr, matches_star_cons, Bool.false_and]

/-- The prefix matcher finds exactly the matches that start where it starts. -/
theorem prefixMatch_iff (r : Regex) (st : Bool) (s : List Char) :
    prefixMatch st r s = true ↔ ∃ m a, s = m ++ a ∧ Matches r st a.isEmpty m := by
  induction s generalizing r st with
  | nil =>
    simp only [prefixMatch, nullable_iff]
    constructor
    · intro h; exact ⟨[], [], rfl, h⟩
    · rintro ⟨m, a, h, hm⟩
      obtain ⟨rfl, rfl⟩ := List.append_eq_nil.1 h.symm
      exact hm
  | cons c s ih =>
    simp only [prefixMatch, Bool.or_eq_true, nullable_iff, ih]
    constructor
    · rintro (h | ⟨m, a, rfl, hm⟩)
      · exact ⟨[], c :: s, rfl, h⟩
      · exact ⟨c :: m, a, rfl, (deriv_iff r st _ c m).1 hm⟩
    · rintro ⟨m, a, h, hm⟩
      cases m with
      | nil =>
        simp only [List.nil_append] at h
        subst h
        exact Or.inl hm
      | cons d m =>
        simp only [List.cons_append, List.cons.injEq] at h
        obtain ⟨rfl, rfl⟩ := h
        exact Or.inr ⟨m, a, rfl, (deriv_iff r st _ c m).2 hm⟩

theorem search_iff_aux (r : Regex) (st : Bool) (s : List Char) :
    search st r s = true ↔
      ∃ b m a, s = b ++ (m ++ a) ∧ Matches r (st && b.isEmpty) a.isEmpty m := by
  induction s generalizing st with
  | nil =>
    simp only [search, prefixMatch_iff]
    constructor
    · rintro ⟨m, a, h, hm⟩; exact ⟨[], m, a, h, by simpa using hm⟩
    · rintro ⟨b, m, a, h, hm⟩
      obtain ⟨rfl, h2⟩ := List.append_eq_nil.1 h.symm
      exact ⟨m, a, h2.symm, by simpa using hm⟩
  | cons c s ih =>
    simp only [search, Bool.or_eq_true, prefixMatch_iff, ih]
    constructor
    · rintro (⟨m, a, h, hm⟩ | ⟨b, m, a, rfl, hm⟩)
      · exact ⟨[], m, a, h, by simpa using hm⟩
      · exact ⟨c :: b, m, a, rfl, by simpa using hm⟩
    · rintro ⟨b, m, a, h, hm⟩
      cases b with
      | nil => exact Or.inl ⟨m, a, h, by simpa using hm⟩
      | cons d b =>
        simp only [List.cons_append, List.cons.injEq] at h
        obtain ⟨rfl, rfl⟩ := h
        exact Or.inr ⟨b, m, a, rfl, by simpa using hm⟩

/-- The search decides whether the text contains a match. -/
theorem search_iff (r : Regex) (s : List Char) : search true r s = true ↔ Found r s := by
  rw [search_iff_aux, Found]
  simp only [Bool.true_and]

end Regex

/-! ## The language of `expr` -/

namespace Regex

theorem matches_str_iff (l : List Char) (st en : Bool) (s : List Char) :
    Matches (str l) st en s ↔ s = l := by
  induction l generalizing st en s with
  | nil => simp [str, matches_eps_iff]
  | cons c l ih =>
    simp only [str, matches_cat_iff, matches_lit_iff, ih]
    constructor
    · rintro ⟨u, v, rfl, rfl, rfl⟩; rfl
    · rintro rfl; exact ⟨[c], l, rfl, rfl, rfl⟩

theorem matches_star_range_iff (lo hi : Char) (st en : Bool) (s : List Char) :
    Matches (star (range lo hi)) st en s ↔ ∀ c ∈ s, lo ≤ c ∧ c ≤ hi := by
  induction s generalizing st with
  | nil => simp [Matches.starNil]
  | cons c s ih =>
    rw [matches_star_cons]
    simp only [matches_range_iff, List.mem_cons, forall_eq_or_imp, ← ih false]
    constructor
    · rintro ⟨u, v, rfl, ⟨d, hd, h1, h2⟩, hv⟩
      obtain ⟨rfl, rfl⟩ := List.cons.inj hd
      exact ⟨⟨h1, h2⟩, by simpa using hv⟩
    · rintro ⟨⟨h1, h2⟩, hs⟩
      exact ⟨[], s, rfl, ⟨c, rfl, h1, h2⟩, hs⟩

theorem digit_range_iff (c : Char) : ('0' ≤ c ∧ c ≤ '9') ↔ c.isDigit = true := by
  simp only [Char.isDigit, Bool.and_eq_true, decide_eq_true_eq, Char.le_def]
  rfl

/-- The regex `[0-9]+` matches the non-empty runs of ASCII digits. -/
theorem matches_digits_iff (st en : Bool) (s : List Char) :
    Matches (plus (range '0' '9')) st en s ↔ s ≠ [] ∧ ∀ c ∈ s, c.isDigit = true := by
  simp only [plus, matches_cat_iff, matches_range_iff, matches_star_range_iff, digit_range_iff]
  constructor
  · rintro ⟨u, v, rfl, ⟨c, rfl, hc⟩, hv⟩
    refine ⟨by simp, ?_⟩
    intro d hd
    simp only [List.singleton_append, List.mem_cons] at hd
    rcases hd with rfl | hd
    · exact hc
    · exact hv d hd
  · rintro ⟨hne, hs⟩
    cases s with
    | nil => exact absurd rfl hne
    | cons c s =>
      exact ⟨[c], s, rfl, ⟨c, rfl, hs c (List.mem_cons_self _ _)⟩,
        fun d hd => hs d (List.mem_cons_of_mem _ hd)⟩

end Regex

theorem isDigits_iff (d : String) :
    IsDigits d ↔ d.data ≠ [] ∧ ∀ c ∈ d.data, c.isDigit = true := by
  rw [IsDigits]
  have h : d ≠ "" ↔ d.data ≠ [] := by
    rw [Ne, Ne, String.ext_iff]
  rw [h]

/-- A match of `expr` spans a whole text and has the shape of the grammar. -/
theorem matches_expr_iff (st en : Bool) (s : List Char) :
    Regex.Matches expr st en s ↔
      st = true ∧ en = true ∧
      ∃ p a b c d : List Char, (p = "ios".data ∨ p = "android".data) ∧
        (a ≠ [] ∧ ∀ x ∈ a, x.isDigit = true) ∧ (b ≠ [] ∧ ∀ x ∈ b, x.isDigit = true) ∧
        (c ≠ [] ∧ ∀ x ∈ c, x.isDigit = true) ∧ (d ≠ [] ∧ ∀ x ∈ d, x.isDigit = true) ∧
        s = p ++ (' ' :: (a ++ ('.' :: (b ++ ('.' :: (c ++ ('+' :: d))))))) := by
  simp only [expr, Regex.matches_cat_iff, Regex.matches_alt_iff, Regex.matches_str_iff,
    Regex.matches_lit_iff, Regex.matches_digits_iff, Regex.matches_beginText_iff,
    Regex.matches_endText_iff]
  constructor
  · rintro ⟨_, _, rfl, ⟨hst, rfl⟩, p, _, rfl, hp, _, _, rfl, rfl, a, _, rfl, ha, _, _, rfl, rfl,
      b, _, rfl, hb, _, _, rfl, rfl, c, _, rfl, hc, _, _, rfl, rfl, d, _, rfl, hd, hen, rfl⟩
    exact ⟨hst, hen, p, a, b, c, d, hp, ha, hb, hc, hd, by simp⟩
  · rintro ⟨hst, hen, p, a, b, c, d, hp, ha, hb, hc, hd, rfl⟩
    exact ⟨[], _, rfl, ⟨hst, rfl⟩, p, _, rfl, hp, _, _, rfl, rfl, a, _, rfl, ha, _, _, rfl, rfl,
      b, _, rfl, hb, _, _, rfl, rfl, c, _, rfl, hc, _, _, rfl, rfl, d, [], by simp, hd, hen, rfl⟩

/-- The text contains a match of `expr` exactly when the whole text has the
shape of the grammar. -/
theorem found_expr_iff (s : List Char) :
    Regex.Found expr s ↔
      ∃ p a b c d : List Char, (p = "ios".data ∨ p = "android".data) ∧
        (a ≠ [] ∧ ∀ x ∈ a, x.isDigit = true) ∧ (b ≠ [] ∧ ∀ x ∈ b, x.isDigit = true) ∧
        (c ≠ [] ∧ ∀ x ∈ c, x.isDigit = true) ∧ (d ≠ [] ∧ ∀ x ∈ d, x.isDigit = true) ∧
        s = p ++ (' ' :: (a ++ ('.' :: (b ++ ('.' :: (c ++ ('+' :: d))))))) := by
  simp only [Regex.Found, matches_expr_iff]
  constructor
  · rintro ⟨pre, m, post, rfl, hpre, hpost, p, a, b, c, d, hp, ha, hb, hc, hd, rfl⟩
    have h1 : pre = [] := List.isEmpty_iff.1 hpre
    have h2 : post = [] := List.isEmpty_iff.1 hpost
    subst h1 h2
    exact ⟨p, a, b, c, d, hp, ha, hb, hc, hd, by simp⟩
  · rintro ⟨p, a, b, c, d, hp, ha, hb, hc, hd, rfl⟩
    exact ⟨[], _, [], by simp, rfl, rfl, p, a, b, c, d, hp, ha, hb, hc, hd, rfl⟩

/-- The matcher run by `isValid` accepts exactly the strings of the grammar. -/
theorem matchString_expr_iff (v : String) : MatchString expr v = true ↔ AppVersionGrammar v := by
  rw [MatchString, Regex.search_iff, found_expr_iff, AppVersionGrammar]
  constructor
  · rintro ⟨p, a, b, c, d, hp, ha, hb, hc, hd, hv⟩
    refine ⟨⟨p⟩, ⟨a⟩, ⟨b⟩, ⟨c⟩, ⟨d⟩, ?_, (isDigits_iff _).2 ha, (isDigits_iff _).2 hb,
      (isDigits_iff _).2 hc, (isDigits_iff _).2 hd, ?_⟩
    · rcases hp with rfl | rfl
      · exact Or.inl rfl
      · exact Or.inr rfl
    · apply String.ext
      simp only [String.data_append, hv]
      simp
  · rintro ⟨p, a, b, c, d, hp, ha, hb, hc, hd, rfl⟩
    refine ⟨p.data, a.data, b.data, c.data, d.data, ?_, (isDigits_iff _).1 ha,
      (isDigits_iff _).1 hb, (isDigits_iff _).1 hc, (isDigits_iff _).1 hd, ?_⟩
    · rcases hp with rfl | rfl
      · exact Or.inl rfl
      · exact Or.inr rfl
    · simp only [String.data_append]
      simp

/-! ## `isValid`, kind by kind -/

section
variable {E W : Type}

theorem isValid_subject (c : Collab E W) (v : String) :
    isValid c "subject" v =
      if v.utf8ByteSize > 50 then
        some (.errorString "email subject is more than 50 characters")
      else none := by
  rw [isValid, if_neg (by decide), if_pos rfl]
  rfl

theorem isValid_message (c : Collab E W) (v : String) :
    isValid c "message" v =
      if v.utf8ByteSize > 500 then
        some (.errorString "email message is more than 500 characters")
      else none := by
  rw [isValid, if_neg (by decide), if_neg (by decide), if_pos rfl]
  rfl

theorem isValid_app (c : Collab E W) (v : String) :
    isValid c "app" v =
      if MatchString expr v = true then none
      else some (.errorString (v ++ " app version is not correct")) := by
  rw [isValid, if_neg (by decide), if_neg (by decide), if_neg (by decide), if_pos rfl]
  cases MatchString expr v <;> rfl

theorem grammar_of_isValid_app (c : Collab E W) (v : String) (h : isValid c "app" v = none) :
    AppVersionGrammar v := by
  rw [isValid_app] at h
  by_cases hm : MatchString expr v = true
  · exact (matchString_expr_iff v).1 hm
  · rw [if_neg hm] at h; cases h

theorem isValid_unknown (c : Collab E W) (k v : String)
    (h1 : k ≠ "email") (h2 : k ≠ "subject") (h3 : k ≠ "message") (h4 : k ≠ "app") :
    isValid c k v = some (.errorString ("unknown field " ++ k)) := by
  rw [isValid, if_neg h1, if_neg h2, if_neg h3, if_neg h4]

/-! ## C1 – C3: the three pure validation rules -/

set_option maxRecDepth 8000

/-- C1: `isValid("app", v)` returns nil exactly when `v` is `ios` or `android`,
one space, three non-empty digit runs separated by `.`, `+` and a non-empty
digit run, with nothing before or after; for every other `v` it returns the
error `v ++ " app version is not correct"`.  `"ios 1.2.3+4"` is accepted;
`"ios1.2.3+4"`, `"windows 1.2.3+4"`, `"ios 1.2.3"` and `"ios 1.2.3+4 "` are
rejected. -/
theorem isValid_app_grammar (c : Collab E W) (v : String) :
    (isValid c "app" v = none ↔ AppVersionGrammar v) ∧
    (isValid c "app" v = some (.errorString (v ++ " app version is not correct")) ↔
      ¬ AppVersionGrammar v) ∧
    isValid c "app" "ios 1.2.3+4" = none ∧
    isValid c "app" "ios1.2.3+4" =
      some (.errorString "ios1.2.3+4 app version is not correct") ∧
    isValid c "app" "windows 1.2.3+4" =
      some (.errorString "windows 1.2.3+4 app version is not correct") ∧
    isValid c "app" "ios 1.2.3" =
      some (.errorString "ios 1.2.3 app version is not correct") ∧
    isValid c "app" "ios 1.2.3+4 " =
      some (.errorString "ios 1.2.3+4  app version is not correct") := by
  refine ⟨?_, ?_, ?_, ?_, ?_, ?_, ?_⟩
  · rw [isValid_app, ← matchString_expr_iff]
    by_cases h : MatchString expr v = true <;> simp [h]
  · rw [isValid_app, ← matchString_expr_iff]
    by_cases h : MatchString expr v = true <;> simp [h]
  · rw [isValid_app, if_pos (by decide)]
  · rw [isValid_app, if_neg (by decide)]; rfl
  · rw [isValid_app, if_neg (by decide)]; rfl
  · rw [isValid_app, if_neg (by decide)]; rfl
  · rw [isValid_app, if_neg (by decide)]; rfl

/-- C2: `isValid("subject", v)` returns nil if and only if the UTF-8 byte length
of `v` is at most 50, and otherwise the error "email subject is more than 50
characters"; a subject of 50 bytes passes and one of 51 bytes fails. -/
theorem isValid_subject_limit (c : Collab E W) (v : String) :
    (isValid c "subject" v = none ↔ v.utf8ByteSize ≤ 50) ∧
    (isValid c "subject" v =
        some (.errorString "email subject is more than 50 characters") ↔
      ¬ v.utf8ByteSize ≤ 50) ∧
    isValid c "subject" (String.mk (List.replicate 50 'a')) = none ∧
    isValid c "subject" (String.mk (List.replicate 51 'a')) =
      some (.errorString "email subject is more than 50 characters") := by
  refine ⟨?_, ?_, ?_, ?_⟩
  · rw [isValid_subject]
    by_cases h : v.utf8ByteSize > 50
    · simp [h]
    · simp [h]; omega
  · rw [isValid_subject]
    by_cases h : v.utf8ByteSize > 50
    · simp [h]
    · simp [h]
  · rw [isValid_subject, if_neg (by decide)]
  · rw [isValid_subject, if_pos (by decide)]

/-- C3: `isValid("message", v)` returns nil if and only if the UTF-8 byte length
of `v` is at most 500, and otherwise the error "email message is more than 500
characters"; a message of 500 bytes passes and one of 501 bytes fails. -/
theorem isValid_message_limit (c : Collab E W) (v : String) :
    (isValid c "message" v = none ↔ v.utf8ByteSize ≤ 500) ∧
    (isValid c "message" v =
        some (.errorString "email message is more than 500 characters") ↔
      ¬ v.utf8ByteSize ≤ 500) ∧
    isValid c "message" (String.mk (List.replicate 500 'a')) = none ∧
    isValid c "message" (String.mk (List.replicate 501 'a')) =
      some (.errorString "email message is more than 500 characters") := by
  refine ⟨?_, ?_, ?_, ?_⟩
  · rw [isValid_message]
    by_cases h : v.utf8ByteSize > 500
    · simp [h]
    · simp [h]; omega
  · rw [isValid_message]
    by_cases h : v.utf8ByteSize > 500
    · simp [h]
    · simp [h]
  · rw [isValid_message, if_neg (by decide)]
  · rw [isValid_message, if_pos (by decide)]

end

/-! ## C4 – C6: `buildEmail` -/

section
variable {E W : Type}

/-- What `buildEmail` does once the body is decoded and the four checks pass. -/
theorem buildEmail_of_valid (c : Collab E W) (r : APIGatewayV2HTTPRequest) (s : Sys W) (m : Mail)
    (hbody : c.Unmarshal r.Body = .ok m)
    (h1 : isValid c "email" m.Email = none) (h2 : isValid c "subject" m.Subject = none)
    (h3 : isValid c "message" m.Message = none) (h4 : isValid c "app" m.AppVersion = none) :
    buildEmail c r s =
      match c.GetParameter ("/collaction/" ++
        (if r.RequestContext.Stage = "" then "dev" else r.RequestContext.Stage) ++
        "/contact/email") s.world with
      | (.error err, w) => (.ret (.error (.foreign err)), ⟨w, s.calls ++ [.GetParameter ("/collaction/" ++
        (if r.RequestContext.Stage = "" then "dev" else r.RequestContext.Stage) ++
        "/contact/email")]⟩)
      | (.ok ⟨none⟩, w) => (.panic, ⟨w, s.calls ++ [.GetParameter ("/collaction/" ++
        (if r.RequestContext.Stage = "" then "dev" else r.RequestContext.Stage) ++
        "/contact/email")]⟩)
      | (.ok ⟨some ⟨none⟩⟩, w) => (.panic, ⟨w, s.calls ++ [.GetParameter ("/collaction/" ++
        (if r.RequestContext.Stage = "" then "dev" else r.RequestContext.Stage) ++
        "/contact/email")]⟩)
      | (.ok ⟨some ⟨some recipient⟩⟩, w) =>
        if recipient = "" then
          (.ret (.error (.errorString "no email value")), ⟨w, s.calls ++ [.GetParameter ("/collaction/" ++
        (if r.RequestContext.Stage = "" then "dev" else r.RequestContext.Stage) ++
        "/contact/email")]⟩)
        else
          (.ret (.ok {
            Destination := { ToAddresses := [recipient] }
            Message := {
              Body := { Text := { Charset := "UTF-8",
                                  Data := m.Message ++ "  ### app version: " ++ m.AppVersion } }
              Subject := { Charset := "UTF-8", Data := m.Subject } }
            Source := recipient
            ReplyToAddresses := [m.Email] }), ⟨w, s.calls ++ [.GetParameter ("/collaction/" ++
        (if r.RequestContext.Stage = "" then "dev" else r.RequestContext.Stage) ++
        "/contact/email")]⟩) := by
  simp only [buildEmail, hbody, h1, h2, h3, h4, getParameterValue]
  rcases hg : c.GetParameter ("/collaction/" ++
        (if r.RequestContext.Stage = "" then "dev" else r.RequestContext.Stage) ++
        "/contact/email") s.world with ⟨res, w⟩
  cases res with
  | error err => rfl
  | ok out =>
    cases out with
    | mk par =>
      cases par with
      | none => rfl
      | some par =>
        cases par with
        | mk val =>
          cases val with
          | none => rfl
          | some recipient => rfl

/-- C4: when the request body decodes to fields that all pass `isValid` and the
configuration store returns a non-empty address `a`, `buildEmail` succeeds and
the message has `Source = a`, `ToAddresses = [a]`, `ReplyToAddresses` the
submitted e-mail, the subject verbatim, body text `message ++ "  ### app
version: " ++ app_version`, and charset "UTF-8" on subject and body. -/
theorem buildEmail_assembles (c : Collab E W) (r : APIGatewayV2HTTPRequest) (s : Sys W)
    (m : Mail) (a : String) (w : W)
    (hbody : c.Unmarshal r.Body = .ok m)
    (h1 : isValid c "email" m.Email = none) (h2 : isValid c "subject" m.Subject = none)
    (h3 : isValid c "message" m.Message = none) (h4 : isValid c "app" m.AppVersion = none)
    (hstore : c.GetParameter ("/collaction/" ++
        (if r.RequestContext.Stage = "" then "dev" else r.RequestContext.Stage) ++
        "/contact/email") s.world = (.ok { Parameter := some { Value := some a } }, w))
    (ha : a ≠ "") :
    (buildEmail c r s).1 = .ret (.ok {
      Destination := { ToAddresses := [a] }
      Message := {
        Body := { Text := { Charset := "UTF-8",
                            Data := m.Message ++ "  ### app version: " ++ m.AppVersion } }
        Subject := { Charset := "UTF-8", Data := m.Subject } }
      Source := a
      ReplyToAddresses := [m.Email] }) := by
  rw [buildEmail_of_valid c r s m hbody h1 h2 h3 h4, hstore]
  simp only [if_neg ha]

/-- An instance of C4: the sample request with the store returning
"team@example.com". -/
theorem buildEmail_assembles_witness :
    ((sampleCollab (.ok ⟨some ⟨some "team@example.com"⟩⟩) none none).Unmarshal sampleBody =
        .ok ⟨"a@b.com", "Hi", "Hello", "android 2.0.0+10"⟩ ∧
      isValid (sampleCollab (.ok ⟨some ⟨some "team@example.com"⟩⟩) none none)
        "email" "a@b.com" = none ∧
      isValid (sampleCollab (.ok ⟨some ⟨some "team@example.com"⟩⟩) none none)
        "subject" "Hi" = none ∧
      isValid (sampleCollab (.ok ⟨some ⟨some "team@example.com"⟩⟩) none none)
        "message" "Hello" = none ∧
      isValid (sampleCollab (.ok ⟨some ⟨some "team@example.com"⟩⟩) none none)
        "app" "android 2.0.0+10" = none ∧
      (sampleCollab (.ok ⟨some ⟨some "team@example.com"⟩⟩) none none).GetParameter
        "/collaction/prod/contact/email" () = (.ok ⟨some ⟨some "team@example.com"⟩⟩, ()) ∧
      "team@example.com" ≠ "") ∧
    (buildEmail (sampleCollab (.ok ⟨some ⟨some "team@example.com"⟩⟩) none none)
        ⟨sampleBody, ⟨"prod"⟩⟩ ⟨(), []⟩).1 =
      .ret (.ok {
        Destination := { ToAddresses := ["team@example.com"] }
        Message := {
          Body := { Text := { Charset := "UTF-8",
                              Data := "Hello  ### app version: android 2.0.0+10" } }
          Subject := { Charset := "UTF-8", Data := "Hi" } }
        Source := "team@example.com"
        ReplyToAddresses := ["a@b.com"] }) :=
  ⟨⟨rfl, by decide, by decide, by decide, by decide, rfl, by decide⟩,
    buildEmail_assembles (sampleCollab (.ok ⟨some ⟨some "team@example.com"⟩⟩) none none)
      ⟨sampleBody, ⟨"prod"⟩⟩ ⟨(), []⟩ ⟨"a@b.com", "Hi", "Hello", "android 2.0.0+10"⟩
      "team@example.com" () rfl (by decide) (by decide) (by decide) (by decide) rfl (by decide)⟩

/-- C5: when the body decodes, `buildEmail` checks email, subject, message and
app_version in that order; if some check fails it returns the error of the
first failing field, no message, and makes no remote call (world and call log
are unchanged).  A valid e-mail with a 51-byte subject and the tag
"windows 1.2.3+4" yields the subject error, not the app-version error. -/
theorem buildEmail_first_failure (c : Collab E W) (r : APIGatewayV2HTTPRequest) (s : Sys W)
    (m : Mail) (hbody : c.Unmarshal r.Body = .ok m) :
    (∀ e : GoError E,
      [("email", m.Email), ("subject", m.Subject), ("message", m.Message),
        ("app", m.AppVersion)].findSome? (fun kv => isValid c kv.1 kv.2) = some e →
      buildEmail c r s = (.ret (.error e), s)) ∧
    (isValid c "email" m.Email = none → m.Subject.utf8ByteSize = 51 →
      m.AppVersion = "windows 1.2.3+4" →
      buildEmail c r s =
        (.ret (.error (.errorString "email subject is more than 50 characters")), s)) := by
  constructor
  · intro e he
    simp only [List.findSome?] at he
    simp only [buildEmail, hbody]
    cases h1 : isValid c "email" m.Email with
    | some e1 => rw [h1] at he; cases he; rfl
    | none =>
      cases h2 : isValid c "subject" m.Subject with
      | some e2 => rw [h1, h2] at he; cases he; rfl
      | none =>
        cases h3 : isValid c "message" m.Message with
        | some e3 => rw [h1, h2, h3] at he; cases he; rfl
        | none =>
          cases h4 : isValid c "app" m.AppVersion with
          | some e4 => rw [h1, h2, h3, h4] at he; cases he; rfl
          | none => rw [h1, h2, h3, h4] at he; cases he
  · intro h1 hlen _
    have h2 : isValid c "subject" m.Subject =
        some (.errorString "email subject is more than 50 characters") := by
      rw [isValid_subject, hlen, if_pos (by decide)]
    simp only [buildEmail, hbody, h1, h2]

/-- An instance of C5: a request with a valid e-mail, a 51-byte subject and the
tag "windows 1.2.3+4". -/
theorem buildEmail_first_failure_witness :
    (sampleCollab (.ok ⟨some ⟨some "team@example.com"⟩⟩) none none).Unmarshal longSubjectBody =
        .ok ⟨"a@b.com", String.mk (List.replicate 51 'x'), "Hello", "windows 1.2.3+4"⟩ ∧
    isValid (sampleCollab (.ok ⟨some ⟨some "team@example.com"⟩⟩) none none)
        "app" "windows 1.2.3+4" =
      some (.errorString "windows 1.2.3+4 app version is not correct") ∧
    buildEmail (sampleCollab (.ok ⟨some ⟨some "team@example.com"⟩⟩) none none)
        ⟨longSubjectBody, ⟨"prod"⟩⟩ ⟨(), []⟩ =
      (.ret (.error (.errorString "email subject is more than 50 characters")), ⟨(), []⟩) :=
  ⟨rfl, by decide,
    (buildEmail_first_failure (sampleCollab (.ok ⟨some ⟨some "team@example.com"⟩⟩) none none)
      ⟨longSubjectBody, ⟨"prod"⟩⟩ ⟨(), []⟩
      ⟨"a@b.com", String.mk (List.replicate 51 'x'), "Hello", "windows 1.2.3+4"⟩ rfl).1
      (.errorString "email subject is more than 50 characters") (by decide)⟩

/-- C6: when the four fields pass validation, `buildEmail` makes exactly one
remote call, `GetParameter` with the key `"/collaction/" ++ s ++
"/contact/email"` where `s` is the stage of the request context, or "dev" when
that is empty.  A store error `e` is returned unchanged with no message; an
empty value gives the error "no email value" and no message; a message is
assembled exactly when the store returns a non-empty value. -/
theorem buildEmail_store (c : Collab E W) (r : APIGatewayV2HTTPRequest) (s : Sys W) (m : Mail)
    (hbody : c.Unmarshal r.Body = .ok m)
    (h1 : isValid c "email" m.Email = none) (h2 : isValid c "subject" m.Subject = none)
    (h3 : isValid c "message" m.Message = none) (h4 : isValid c "app" m.AppVersion = none) :
    (buildEmail c r s).2.calls = s.calls ++ [.GetParameter ("/collaction/" ++
        (if r.RequestContext.Stage = "" then "dev" else r.RequestContext.Stage) ++
        "/contact/email")] ∧
    (buildEmail c r s).2.world = (c.GetParameter ("/collaction/" ++
        (if r.RequestContext.Stage = "" then "dev" else r.RequestContext.Stage) ++
        "/contact/email") s.world).2 ∧
    (∀ e, (c.GetParameter ("/collaction/" ++
        (if r.RequestContext.Stage = "" then "dev" else r.RequestContext.Stage) ++
        "/contact/email") s.world).1 = .error e →
      (buildEmail c r s).1 = .ret (.error (.foreign e))) ∧
    ((c.GetParameter ("/collaction/" ++
        (if r.RequestContext.Stage = "" then "dev" else r.RequestContext.Stage) ++
        "/contact/email") s.world).1 = .ok { Parameter := some { Value := some "" } } →
      (buildEmail c r s).1 = .ret (.error (.errorString "no email value"))) ∧
    ((∃ input, (buildEmail c r s).1 = .ret (.ok input)) ↔
      ∃ a, a ≠ "" ∧
        (c.GetParameter ("/collaction/" ++
        (if r.RequestContext.Stage = "" then "dev" else r.RequestContext.Stage) ++
        "/contact/email") s.world).1 = .ok { Parameter := some { Value := some a } }) := by
  rw [buildEmail_of_valid c r s m hbody h1 h2 h3 h4]
  rcases hg : c.GetParameter ("/collaction/" ++
        (if r.RequestContext.Stage = "" then "dev" else r.RequestContext.Stage) ++
        "/contact/email") s.world with ⟨res, w⟩
  cases res with
  | error err =>
    refine ⟨rfl, rfl, ?_, ?_, ?_⟩
    · intro e he; cases he; rfl
    · intro he; cases he
    · constructor
      · rintro ⟨input, hi⟩; cases hi
      · rintro ⟨a, _, ha⟩; cases ha
  | ok out =>
    cases out with
    | mk par =>
      cases par with
      | none =>
        refine ⟨rfl, rfl, ?_, ?_, ?_⟩
        · intro e he; cases he
        · intro he; cases he
        · constructor
          · rintro ⟨input, hi⟩; cases hi
          · rintro ⟨a, _, ha⟩; cases ha
      | some par =>
        cases par with
        | mk val =>
          cases val with
          | none =>
            refine ⟨rfl, rfl, ?_, ?_, ?_⟩
            · intro e he; cases he
            · intro he; cases he
            · constructor
              · rintro ⟨input, hi⟩; cases hi
              · rintro ⟨a, _, ha⟩; cases ha
          | some recipient =>
            by_cases hr : recipient = ""
            · subst hr
              refine ⟨rfl, rfl, ?_, ?_, ?_⟩
              · intro e he; cases he
              · intro _; rfl
              · constructor
                · rintro ⟨input, hi⟩; cases hi
                · rintro ⟨a, ha, he⟩; cases he; exact absurd rfl ha
            · simp only [if_neg hr]
              refine ⟨trivial, trivial, ?_, ?_, ?_⟩
              · intro e he; cases he
              · intro he; cases he; exact absurd rfl hr
              · constructor
                · intro _; exact ⟨recipient, hr, rfl⟩
                · intro _; exact ⟨_, rfl⟩

/-- An instance of C6: the sample request with an empty stage and a store that
fails. -/
theorem buildEmail_store_witness :
    ((sampleCollab (.error "ParameterNotFound") none none).Unmarshal sampleBody =
        .ok ⟨"a@b.com", "Hi", "Hello", "android 2.0.0+10"⟩ ∧
      isValid (sampleCollab (.error "ParameterNotFound") none none) "email" "a@b.com" = none ∧
      isValid (sampleCollab (.error "ParameterNotFound") none none) "subject" "Hi" = none ∧
      isValid (sampleCollab (.error "ParameterNotFound") none none) "message" "Hello" = none ∧
      isValid (sampleCollab (.error "ParameterNotFound") none none) "app" "android 2.0.0+10" =
        none) ∧
    (buildEmail (sampleCollab (.error "ParameterNotFound") none none) ⟨sampleBody, ⟨""⟩⟩
        ⟨(), []⟩).2.calls = [.GetParameter "/collaction/dev/contact/email"] ∧
    (buildEmail (sampleCollab (.error "ParameterNotFound") none none) ⟨sampleBody, ⟨""⟩⟩
        ⟨(), []⟩).1 = .ret (.error (.foreign "ParameterNotFound")) :=
  ⟨⟨rfl, by decide, by decide, by decide, by decide⟩,
    (buildEmail_store (sampleCollab (.error "ParameterNotFound") none none)
      ⟨sampleBody, ⟨""⟩⟩ ⟨(), []⟩ ⟨"a@b.com", "Hi", "Hello", "android 2.0.0+10"⟩ rfl
      (by decide) (by decide) (by decide) (by decide)).1,
    (buildEmail_store (sampleCollab (.error "ParameterNotFound") none none)
      ⟨sampleBody, ⟨""⟩⟩ ⟨(), []⟩ ⟨"a@b.com", "Hi", "Hello", "android 2.0.0+10"⟩ rfl
      (by decide) (by decide) (by decide) (by decide)).2.2.1 "ParameterNotFound" rfl⟩

/-! ## C7: `handler` -/

theorem subject_text_ne_unknown (k : String) :
    "email subject is more than 50 characters" ≠ "unknown field " ++ k := by
  intro h
  have h1 := congrArg String.data h
  rw [String.data_append] at h1
  exact absurd (List.cons.inj h1).1 (by decide)

theorem message_text_ne_unknown (k : String) :
    "email message is more than 500 characters" ≠ "unknown field " ++ k := by
  intro h
  have h1 := congrArg String.data h
  rw [String.data_append] at h1
  exact absurd (List.cons.inj h1).1 (by decide)

/-- A value whose app-version error text is an "unknown field" text starts
with "unknown field", and the kind named ends with "app version is not
correct". -/
theorem app_text_eq_unknown (v k : String)
    (h : v ++ " app version is not correct" = "unknown field " ++ k) :
    (∃ rest : String, v = "unknown field" ++ rest) ∧
    (∃ pre : String, k = pre ++ "app version is not correct") := by
  have h1 := congrArg String.data h
  rw [String.data_append, String.data_append] at h1
  have key : ∀ n ≤ 14, ("unknown field ".data.drop n <+: " app version is not correct".data) →
      n = 13 ∨ n = 14 := by decide
  have hpre : ("unknown field".data <+: v.data) ∧
      ("app version is not correct".data <:+ k.data) := by
    rcases List.append_eq_append_iff.1 h1 with ⟨a, hp, hs⟩ | ⟨b, hv, hk⟩
    · have hlen : v.data.length ≤ 14 := by
        have h14 : "unknown field ".data.length = 14 := by decide
        have hl := congrArg List.length hp
        rw [List.length_append, h14] at hl
        omega
      have hv : v.data = "unknown field ".data.take v.data.length := by
        rw [hp, List.take_left]
      have ha : a = "unknown field ".data.drop v.data.length := by
        rw [hp, List.drop_left]
      have hn := key v.data.length hlen (by rw [← ha, hs]; exact List.prefix_append _ _)
      rcases hn with hn | hn
      · rw [hn] at ha
        have ha2 : a = [' '] := by rw [ha]; decide
        rw [ha2] at hs
        have hk : k.data = "app version is not correct".data := (List.cons.inj hs).2.symm
        refine ⟨?_, ?_⟩
        · rw [hv, hn]; exact ⟨[], by decide⟩
        · exact ⟨[], hk.symm⟩
      · rw [hn] at ha
        have ha2 : a = [] := by rw [ha]; decide
        rw [ha2, List.nil_append] at hs
        refine ⟨?_, ?_⟩
        · rw [hv, hn]; exact ⟨[' '], by decide⟩
        · rw [← hs]; exact ⟨[' '], rfl⟩
    · refine ⟨?_, ?_⟩
      · rw [hv]; exact ⟨' ' :: b, rfl⟩
      · rw [hk]; exact ⟨b ++ [' '], by simp⟩
  obtain ⟨⟨rest, hrest⟩, ⟨pre, hpre2⟩⟩ := hpre
  exact ⟨⟨⟨rest⟩, String.ext (by rw [String.data_append, hrest])⟩,
    ⟨⟨pre⟩, String.ext (by rw [String.data_append, hpre2])⟩⟩

/-- No string of the grammar starts with "unknown field". -/
theorem not_grammar_unknown (rest : String) : ¬ AppVersionGrammar ("unknown field" ++ rest) := by
  rintro ⟨p, a, b, c, d, hp, -, -, -, -, hv⟩
  have h1 := congrArg String.data hv
  simp only [String.data_append, List.append_assoc] at h1
  rcases hp with rfl | rfl
  · exact absurd (List.cons.inj h1).1 (by decide)
  · exact absurd (List.cons.inj h1).1 (by decide)

/-- C8 as stated fails: the unknown kind "x app version is not correct" gives
the fault text "unknown field x app version is not correct", and so does the
known kind "app" on the value "unknown field x". -/
theorem isValid_unknown_collision :
    ("x app version is not correct" ≠ "email" ∧ "x app version is not correct" ≠ "subject" ∧
      "x app version is not correct" ≠ "message" ∧ "x app version is not correct" ≠ "app") ∧
    isValid (sampleCollab (.error "ParameterNotFound") none none)
        "x app version is not correct" "" =
      some (.errorString ("unknown field " ++ "x app version is not correct")) ∧
    isValid (sampleCollab (.error "ParameterNotFound") none none) "app" "unknown field x" =
      some (.errorString ("unknown field " ++ "x app version is not correct")) := by
  decide

/-- C8, amended: for every kind `k` other than "email", "subject", "message" and
"app" and every value, `isValid` returns the error "unknown field " ++ k; no
"subject" or "message" check ever returns an error with that text; an "app"
check on `v2` returns it exactly when `v2 ++ " app version is not correct" =
"unknown field " ++ k`; so when `k` does not end in "app version is not
correct", no "app" check returns it either. -/
theorem isValid_unknown_distinct (c : Collab E W) (k v : String)
    (hk : k ≠ "email" ∧ k ≠ "subject" ∧ k ≠ "message" ∧ k ≠ "app") :
    isValid c k v = some (.errorString ("unknown field " ++ k)) ∧
    (∀ v2, isValid c "subject" v2 ≠ some (.errorString ("unknown field " ++ k))) ∧
    (∀ v2, isValid c "message" v2 ≠ some (.errorString ("unknown field " ++ k))) ∧
    (∀ v2, isValid c "app" v2 = some (.errorString ("unknown field " ++ k)) ↔
      v2 ++ " app version is not correct" = "unknown field " ++ k) ∧
    ((¬ ∃ pre : String, k = pre ++ "app version is not correct") →
      ∀ v2, isValid c "app" v2 ≠ some (.errorString ("unknown field " ++ k))) := by
  have happ : ∀ v2, isValid c "app" v2 = some (.errorString ("unknown field " ++ k)) ↔
      v2 ++ " app version is not correct" = "unknown field " ++ k := by
    intro v2
    constructor
    · intro h
      rw [isValid_app] at h
      by_cases hm : MatchString expr v2 = true
      · rw [if_pos hm] at h; cases h
      · rw [if_neg hm] at h
        exact GoError.errorString.inj (Option.some.inj h)
    · intro h
      obtain ⟨⟨rest, hrest⟩, -⟩ := app_text_eq_unknown v2 k h
      have hm : ¬ MatchString expr v2 = true := by
        rw [matchString_expr_iff, hrest]
        exact not_grammar_unknown rest
      rw [isValid_app, if_neg hm, h]
  refine ⟨isValid_unknown c k v hk.1 hk.2.1 hk.2.2.1 hk.2.2.2, ?_, ?_, happ, ?_⟩
  · intro v2 h
    rw [isValid_subject] at h
    by_cases hl : v2.utf8ByteSize > 50
    · rw [if_pos hl] at h
      exact subject_text_ne_unknown k (GoError.errorString.inj (Option.some.inj h))
    · rw [if_neg hl] at h; cases h
  · intro v2 h
    rw [isValid_message] at h
    by_cases hl : v2.utf8ByteSize > 500
    · rw [if_pos hl] at h
      exact message_text_ne_unknown k (GoError.errorString.inj (Option.some.inj h))
    · rw [if_neg hl] at h; cases h
  · intro hend v2 h
    exact hend (app_text_eq_unknown v2 k ((happ v2).1 h)).2

/-- The kind "phone" does not end in "app version is not correct". -/
theorem phone_not_app_suffix : ¬ ∃ pre : String, "phone" = pre ++ "app version is not correct" := by
  rintro ⟨pre, h⟩
  have h1 := congrArg String.length h
  rw [String.length_append] at h1
  have h5 : "phone".length = 5 := by decide
  have h26 : "app version is not correct".length = 26 := by decide
  omega

/-- An instance of the amended C8: for the kind "phone" the fault text is
returned by no check of a known kind. -/
theorem isValid_unknown_distinct_witness :
    ("phone" ≠ "email" ∧ "phone" ≠ "subject" ∧ "phone" ≠ "message" ∧ "phone" ≠ "app") ∧
    isValid (sampleCollab (.error "ParameterNotFound") none none) "phone" "12345" =
      some (.errorString ("unknown field " ++ "phone")) ∧
    (∀ v2, isValid (sampleCollab (.error "ParameterNotFound") none none) "app" v2 ≠
      some (.errorString ("unknown field " ++ "phone"))) :=
  ⟨by decide,
    (isValid_unknown_distinct (sampleCollab (.error "ParameterNotFound") none none)
      "phone" "12345" (by decide)).1,
    (isValid_unknown_distinct (sampleCollab (.error "ParameterNotFound") none none)
      "phone" "12345" (by decide)).2.2.2.2 phone_not_app_suffix⟩

/-! ## C9: the subject limit counts bytes -/

theorem length_le_utf8ByteSize (s : String) : s.length ≤ s.utf8ByteSize := by
  cases s with
  | mk l =>
    show l.length ≤ String.utf8ByteSize.go l
    induction l with
    | nil => simp [String.utf8ByteSize.go]
    | cons c l ih =>
      simp only [String.utf8ByteSize.go, List.length_cons]
      have := Char.utf8Size_pos c
      omega

/-- C9 at a failing input: the subject made of 26 letters `é` has 26 characters
and 52 bytes, and `isValid` rejects it as "more than 50 characters".  Every
subject of more than 50 characters is rejected. -/
theorem isValid_subject_counts_bytes (c : Collab E W) :
    (String.mk (List.replicate 26 'é')).length = 26 ∧
    (String.mk (List.replicate 26 'é')).utf8ByteSize = 52 ∧
    isValid c "subject" (String.mk (List.replicate 26 'é')) =
      some (.errorString "email subject is more than 50 characters") ∧
    (∀ s : String, s.length > 50 →
      isValid c "subject" s = some (.errorString "email subject is more than 50 characters")) := by
  refine ⟨by decide, by decide, ?_, ?_⟩
  · rw [isValid_subject, if_pos (by decide)]
  · intro s hs
    have := length_le_utf8ByteSize s
    rw [isValid_subject, if_pos (by omega)]

/-! ## C10: the body determines message and client tag -/

/-- Splitting a list at the last occurrence of `a` is unique. -/
theorem append_cons_unique {α : Type} (a : α) (l1 l2 r1 r2 : List α)
    (h1 : a ∉ r1) (h2 : a ∉ r2) (h : l1 ++ a :: r1 = l2 ++ a :: r2) :
    l1 = l2 ∧ r1 = r2 := by
  induction l1 generalizing l2 with
  | nil =>
    cases l2 with
    | nil => exact ⟨rfl, (List.cons.inj h).2⟩
    | cons b l2 =>
      have hr : r1 = l2 ++ a :: r2 := (List.cons.inj h).2
      exact absurd (by rw [hr]; simp) h1
  | cons b l1 ih =>
    cases l2 with
    | nil =>
      have hr : l1 ++ a :: r1 = r2 := (List.cons.inj h).2
      exact absurd (by rw [← hr]; simp) h2
    | cons b2 l2 =>
      obtain ⟨hb, ht⟩ := List.cons.inj h
      obtain ⟨hl, hr⟩ := ih l2 ht
      exact ⟨by rw [hb, hl], hr⟩

/-- A client tag of the grammar has no `#`. -/
theorem hash_not_mem_of_grammar (t : String) (h : AppVersionGrammar t) : '#' ∉ t.data := by
  obtain ⟨p, a, b, c, d, hp, ha, hb, hc, hd, rfl⟩ := h
  have hdig : ∀ x : String, IsDigits x → '#' ∉ x.data := by
    intro x hx hmem
    exact absurd (hx.2 _ hmem) (by decide)
  have hpl : '#' ∉ p.data := by
    rcases hp with rfl | rfl <;> decide
  simp only [String.data_append, List.mem_append, not_or]
  exact ⟨⟨⟨⟨⟨⟨⟨⟨hpl, by decide⟩, hdig a ha⟩, by decide⟩, hdig b hb⟩, by decide⟩, hdig c hc⟩,
    by decide⟩, hdig d hd⟩

/-- The text of a body after its last `#`. -/
theorem body_data (m t : String) :
    (m ++ "  ### app version: " ++ t).data =
      (m.data ++ "  ##".data) ++ '#' :: (" app version: ".data ++ t.data) := by
  rw [String.data_append, String.data_append]
  have : "  ### app version: ".data = "  ##".data ++ '#' :: " app version: ".data := by decide
  rw [this]
  simp only [List.append_assoc, List.cons_append]

theorem hash_not_mem_tail (t : String) (h : '#' ∉ t.data) :
    '#' ∉ " app version: ".data ++ t.data := by
  rw [List.mem_append, not_or]
  exact ⟨by decide, h⟩

/-- C10: for all messages `m1`, `m2` and all tags `t1`, `t2` accepted by
`isValid("app", ·)`, equal bodies `m ++ "  ### app version: " ++ t` have equal
messages and equal tags, also when a message contains the separator; and
whenever the body of `m1`, `t1` is split as `x ++ "  ### app version: " ++ y`
at the last possible place, `y` is the tag `t1`. -/
theorem body_determines_message_and_tag (c : Collab E W) (m1 m2 t1 t2 : String)
    (h1 : isValid c "app" t1 = none) (h2 : isValid c "app" t2 = none) :
    (m1 ++ "  ### app version: " ++ t1 = m2 ++ "  ### app version: " ++ t2 →
      m1 = m2 ∧ t1 = t2) ∧
    (∀ x y : String, m1 ++ "  ### app version: " ++ t1 = x ++ "  ### app version: " ++ y →
      (∀ x2 y2 : String,
        m1 ++ "  ### app version: " ++ t1 = x2 ++ "  ### app version: " ++ y2 →
        x2.length ≤ x.length) →
      x = m1 ∧ y = t1) := by
  have g1 : '#' ∉ t1.data := hash_not_mem_of_grammar t1 (grammar_of_isValid_app c t1 h1)
  have g2 : '#' ∉ t2.data := hash_not_mem_of_grammar t2 (grammar_of_isValid_app c t2 h2)
  constructor
  · intro h
    have hd := congrArg String.data h
    rw [body_data, body_data] at hd
    obtain ⟨hl, hr⟩ := append_cons_unique '#' _ _ _ _ (hash_not_mem_tail t1 g1)
      (hash_not_mem_tail t2 g2) hd
    exact ⟨String.ext (List.append_cancel_right hl), String.ext (List.append_cancel_left hr)⟩
  · intro x y h hlast
    have hlen : m1.data.length ≤ x.data.length := hlast m1 t1 rfl
    have hd := congrArg String.data h
    have hd2 := hd
    rw [String.data_append, String.data_append, String.data_append, String.data_append] at hd2
    have hlen2 : y.data.length ≤ t1.data.length := by
      have := congrArg List.length hd2
      simp only [List.length_append] at this
      omega
    have hy : y.data <:+ (m1 ++ "  ### app version: " ++ t1).data := by
      rw [hd, String.data_append]; exact List.suffix_append _ _
    have ht : t1.data <:+ (m1 ++ "  ### app version: " ++ t1).data := by
      rw [String.data_append]; exact List.suffix_append _ _
    have hsuf : y.data <:+ t1.data := List.suffix_of_suffix_length_le hy ht hlen2
    have gy : '#' ∉ y.data := fun hm => g1 (hsuf.subset hm)
    rw [body_data, body_data] at hd
    obtain ⟨hl, hr⟩ := append_cons_unique '#' _ _ _ _ (hash_not_mem_tail t1 g1)
      (hash_not_mem_tail y gy) hd
    exact ⟨(String.ext (List.append_cancel_right hl)).symm,
      (String.ext (List.append_cancel_left hr)).symm⟩

/-- An instance of C10: a message that contains the separator itself. -/
theorem body_determines_message_and_tag_witness :
    (isValid (sampleCollab (.error "ParameterNotFound") none none) "app" "ios 1.2.3+4" = none ∧
      "Hello  ### app version: android 9.9.9+9" ++ "  ### app version: " ++ "ios 1.2.3+4" =
        "Hello  ### app version: android 9.9.9+9" ++ "  ### app version: " ++ "ios 1.2.3+4") ∧
    ("Hello  ### app version: android 9.9.9+9" = "Hello  ### app version: android 9.9.9+9" ∧
      "ios 1.2.3+4" = "ios 1.2.3+4") :=
  ⟨⟨by decide, rfl⟩,
    (body_determines_message_and_tag (sampleCollab (.error "ParameterNotFound") none none)
      "Hello  ### app version: android 9.9.9+9" "Hello  ### app version: android 9.9.9+9"
      "ios 1.2.3+4" "ios 1.2.3+4" (by decide) (by decide)).1 rfl⟩

end

end EmailContact
